import Mathlib

/-
Verification of the BetterSQLi orchestration shell.

Shallow embedding of the Python sources:
  orchestrator/core.py      (argument builder, output-dir locator, previews)
  app.py                    (run-history store, return-code heuristic)
  orchestrator/orchestrator.py (secondary CLI driver)

Pure string and list manipulation is translated directly; filesystem
existence is passed in as a predicate on path strings, and the state of
the history file is an explicit inductive value.
-/

namespace BetterSQLi

/-! ## Python string primitives -/

/-- Embeds Python str.replace for a nonempty pattern: scan left to right,
replacing each non-overlapping occurrence of pat by rep.  The condition
compares the next pat.length characters with pat. -/
def pyReplace : List Char → List Char → List Char → List Char
  | [], _, _ => []
  | c :: rest, pat, rep =>
    if (c :: rest).take pat.length = pat then
      rep ++ pyReplace (rest.drop (pat.length - 1)) pat rep
    else
      c :: pyReplace rest pat rep
termination_by s _ _ => s.length
decreasing_by
  all_goals simp [List.length_drop]
  all_goals omega

/-- String-level wrapper for pyReplace. -/
def pyReplaceStr (s pat rep : String) : String :=
  String.mk (pyReplace s.data pat.data rep.data)

/-- Embeds the Python substring test pat in s (contiguous occurrence). -/
def containsSub : List Char → List Char → Bool
  | [], pat => pat.isEmpty
  | c :: rest, pat =>
    if (c :: rest).take pat.length = pat then true else containsSub rest pat

/-- Embeds Python line.rstrip with argument a newline: drop every
trailing newline character. -/
def rstrip_newline (s : String) : String :=
  String.mk (s.data.reverse.dropWhile (fun c => c = '\n')).reverse

/-! ## Argument builder (core.py, build_sqlmap_args) -/

/-- The options record passed to build_sqlmap_args.  Optional numbers
model the Python values None or an int; optional strings model None or a
string (the empty string is falsy in Python, handled at each use site). -/
structure RunOptions where
  dbs : Bool
  tables : Bool
  columns : Bool
  dump : Bool
  dump_all : Bool
  users : Bool
  passwords : Bool
  roles : Bool
  selected_db : Option String
  selected_table : Option String
  threads : Option Nat
  risk : Option Nat
  level : Option Nat
  extra_args : Option String

/-- Python truthiness of an optional string: None and the empty string
are falsy; a nonempty string is truthy (normalised to some). -/
def truthy_str : Option String → Option String
  | none => none
  | some s => if s = "" then none else some s

/-- Risk segment of the argument list (core.py lines 100-101). -/
def risk_args (o : RunOptions) : List String :=
  match o.risk with
  | some n => if n = 0 then [] else ["--risk", toString n]
  | none => []

/-- Level segment of the argument list (core.py lines 102-103). -/
def level_args (o : RunOptions) : List String :=
  match o.level with
  | some n => if n = 0 then [] else ["--level", toString n]
  | none => []

/-- Threads segment of the argument list (core.py lines 104-105). -/
def threads_args (o : RunOptions) : List String :=
  match o.threads with
  | some n => if n = 0 then [] else ["--threads", toString n]
  | none => []

/-- Database-enumeration segment (core.py lines 108-109). -/
def dbs_args (o : RunOptions) : List String :=
  if o.dbs then ["--dbs"] else []

/-- Table-enumeration segment (core.py lines 111-118). -/
def tables_args (o : RunOptions) : List String :=
  if o.tables then
    match truthy_str o.selected_db with
    | some db => ["--tables", "-D", db]
    | none => ["--tables"]
  else []

/-- Column-enumeration segment (core.py lines 120-128). -/
def columns_args (o : RunOptions) : List String :=
  if o.columns then
    (match truthy_str o.selected_db with
     | some db => ["-D", db]
     | none => []) ++
    (match truthy_str o.selected_table with
     | some tbl => ["--columns", "-T", tbl]
     | none => ["--columns"])
  else []

/-- Quick enumeration segments (core.py lines 131-136). -/
def users_args (o : RunOptions) : List String :=
  if o.users then ["--users"] else []

def passwords_args (o : RunOptions) : List String :=
  if o.passwords then ["--passwords"] else []

def roles_args (o : RunOptions) : List String :=
  if o.roles then ["--roles"] else []

/-- Dump segment (core.py lines 139-149): dump-all wins outright, else
the dump branch adds the database selector, then the table selector with
the dump flag, else the dump flag alone. -/
def dump_args (o : RunOptions) : List String :=
  if o.dump_all then ["--dump-all"]
  else if o.dump then
    (match truthy_str o.selected_db with
     | some db => ["-D", db]
     | none => []) ++
    (match truthy_str o.selected_table with
     | some tbl => ["--dump", "-T", tbl]
     | none => ["--dump"])
  else []

/-- Models Python shlex.split for inputs without quoting or escapes
(no claim constrains the tokenizer itself): split on whitespace and
drop empty tokens. -/
def shlex_split (s : String) : List String :=
  (s.split (fun c => c = ' ' ∨ c = '\t' ∨ c = '\n')).filter (fun t => t ≠ "")

/-- Extra raw arguments segment (core.py lines 152-155). -/
def extra_args_tokens (o : RunOptions) : List String :=
  match truthy_str o.extra_args with
  | some s => shlex_split s
  | none => []

/-- Embeds build_sqlmap_args (core.py lines 89-157).  The Python code
appends to one list in a fixed order; the embedding concatenates the
segments in exactly that order. -/
def build_sqlmap_args (target_url : String) (o : RunOptions) : List String :=
  ["sqlmap", "-u", target_url, "--batch", "--answers=follow=Y"]
  ++ risk_args o ++ level_args o ++ threads_args o
  ++ dbs_args o ++ tables_args o ++ columns_args o
  ++ users_args o ++ passwords_args o ++ roles_args o
  ++ dump_args o ++ extra_args_tokens o

/-- A RunOptions value with every flag cleared and every optional unset. -/
def no_options : RunOptions :=
  { dbs := false, tables := false, columns := false, dump := false,
    dump_all := false, users := false, passwords := false, roles := false,
    selected_db := none, selected_table := none,
    threads := none, risk := none, level := none, extra_args := none }

/-- The worked example of the spec: dump with database dvwa and table
users selected, nothing else. -/
def dump_example_options : RunOptions :=
  { no_options with dump := true,
                    selected_db := some "dvwa",
                    selected_table := some "users" }

/-- Only dump-related options set, with dump-all enabled: the dump flag
itself and the selectors are free, every non-dump option is unset. -/
def dump_all_only_options (d : Bool) (db tbl : Option String) : RunOptions :=
  { no_options with dump := d, dump_all := true,
                    selected_db := db, selected_table := tbl }

/-- Dump enabled (dump-all off) with the given selectors, nothing else. -/
def dump_only_options (db tbl : Option String) : RunOptions :=
  { no_options with dump := true, selected_db := db, selected_table := tbl }

/-! ## Output locator (core.py, get_sqlmap_output_dir) -/

/-- Path joining as used by the locator: base slash child.  Models
pathlib joining for nonempty relative child segments, the only shape the
locator produces. -/
def pathJoin (base child : String) : String := base ++ "/" ++ child

/-- The sanitising fallback of the locator (core.py line 41): replace
the scheme separator, then slashes, then colons, by underscores, in that
order. -/
def sanitize_target (t : String) : String :=
  pyReplaceStr (pyReplaceStr (pyReplaceStr t "://" "_") "/" "_") ":" "_"

/-- Embeds get_sqlmap_output_dir (core.py lines 28-43).  Filesystem
existence is supplied as a predicate on path strings. -/
def get_sqlmap_output_dir (fs : String → Bool) (base target : String) : String :=
  let candidate1 := pathJoin base target
  if fs candidate1 then candidate1
  else
    let candidate2 := pathJoin base (sanitize_target target)
    if fs candidate2 then candidate2 else candidate1

/-! ## File previews (core.py, read_file_preview) -/

/-- The truncation marker appended when the line cap is reached. -/
def truncation_marker : String := "... (truncated preview)"

/-- Embeds the enumerate loop of read_file_preview (core.py lines
78-83): append each stripped line; once the 1-based index reaches
max_lines, append the marker and stop.  The file is modelled by its
decoded lines (the Python open uses errors replace, so decoding never
fails). -/
def preview_lines : List String → Nat → Nat → List String
  | [], _, _ => []
  | l :: rest, i, max_lines =>
    if i + 1 ≥ max_lines then [rstrip_newline l, truncation_marker]
    else rstrip_newline l :: preview_lines rest (i + 1) max_lines

/-- Embeds read_file_preview (core.py lines 72-86) on a readable file:
join the collected lines with newlines.  The exception fallback for
unreadable files is outside the claims and not modelled. -/
def read_file_preview (fileLines : List String) (max_lines : Nat) : String :=
  String.intercalate "\n" (preview_lines fileLines 0 max_lines)

/-- A call of read_file_preview that does not supply max_lines: the
Python default parameter value is 200 (core.py line 72). -/
def read_file_preview_default (fileLines : List String) : String :=
  read_file_preview fileLines 200

/-! ## Run history store (app.py) -/

/-- State of the run-history storage file: absent, or present with the
outcome of parsing its text (a parse error models corrupt content). -/
inductive HistoryFile (α : Type) where
  | missing : HistoryFile α
  | present : Except String (List α) → HistoryFile α

/-- Embeds load_run_history (app.py lines 48-54): a missing file or a
parse failure yields the empty list; otherwise the stored list is
returned unchanged. -/
def load_run_history {α : Type} : HistoryFile α → List α
  | HistoryFile.missing => []
  | HistoryFile.present (Except.error _) => []
  | HistoryFile.present (Except.ok l) => l

/-- Embeds add_run_history_entry (app.py lines 64-69) acting on the
loaded list: insert the new entry at index 0 and truncate to 100
entries; the result is what save_run_history persists. -/
def add_run_history_entry {α : Type} (entry : α) (history : List α) : List α :=
  (entry :: history).take 100

/-! ## Return-code heuristic (app.py, run logic lines 214-220) -/

/-- Embeds the fallback return code of the UI driver: lowercase the
concatenation of all streamed chunks; if it contains error or exception
as a substring the run is classified failed with sentinel -1, else 0. -/
def heuristic_returncode (chunks : List String) : Int :=
  let console_join := (String.join chunks).toLower
  if containsSub console_join.data (String.data "error")
     || containsSub console_join.data (String.data "exception")
  then -1 else 0

/-! ## Secondary CLI driver (orchestrator/orchestrator.py) -/

/-- Embeds build_cookie_header (orchestrator.py lines 57-58). -/
def build_cookie_header (cookies : List (String × String)) : String :=
  String.intercalate "; " (cookies.map (fun kv => kv.1 ++ "=" ++ kv.2))

/-- Result record of run_sqlmap (orchestrator.py lines 90-116): the
constructed command and the returncode of the awaited process, which is
passed in since the external process is opaque. -/
structure SqlmapResult where
  cmd : List String
  returncode : Int

/-- Embeds run_sqlmap (orchestrator.py lines 90-116): build the command
with the cookie header and extra arguments, wait for the process, and
report its exit code. -/
def run_sqlmap (url : String) (cookies : List (String × String))
    (extra_args : List String) (proc_exit : Int) : SqlmapResult :=
  { cmd := ["sqlmap", "-u", url, "--batch", "--cookie",
            build_cookie_header cookies] ++ extra_args,
    returncode := proc_exit }

/-- Observable outcome of one invocation of the secondary CLI script. -/
structure OrchestratorOutcome where
  sqlmap_returncode : Int
  process_exit_status : Int

/-- Embeds the run driver and main block (orchestrator.py lines 137-193):
the sqlmap return code is written into summary.json, run returns None,
and the main block falls off the end, so on normal completion the
interpreter exits with status 0 — no call propagates the sqlmap exit
code to the process exit status. -/
def orchestrator_run (url : String) (cookies : List (String × String))
    (extra_args : List String) (sqlmap_exit : Int) : OrchestratorOutcome :=
  let result := run_sqlmap url cookies extra_args sqlmap_exit
  { sqlmap_returncode := result.returncode, process_exit_status := 0 }

/-! ## Helper lemmas -/

lemma risk_args_eq (o : RunOptions) (h : ∀ n, o.risk = some n → 1 ≤ n) :
    risk_args o
      = (match o.risk with | some n => ["--risk", toString n] | none => []) := by
  cases ho : o.risk with
  | none => simp [risk_args, ho]
  | some n =>
    have hn : n ≠ 0 := by have := h n ho; omega
    simp [risk_args, ho, hn]

lemma level_args_eq (o : RunOptions) (h : ∀ n, o.level = some n → 1 ≤ n) :
    level_args o
      = (match o.level with | some n => ["--level", toString n] | none => []) := by
  cases ho : o.level with
  | none => simp [level_args, ho]
  | some n =>
    have hn : n ≠ 0 := by have := h n ho; omega
    simp [level_args, ho, hn]

lemma threads_args_eq (o : RunOptions) (h : ∀ n, o.threads = some n → 1 ≤ n) :
    threads_args o
      = (match o.threads with | some n => ["--threads", toString n] | none => []) := by
  cases ho : o.threads with
  | none => simp [threads_args, ho]
  | some n =>
    have hn : n ≠ 0 := by have := h n ho; omega
    simp [threads_args, ho, hn]

/-! ## C1: dump precedence -/

/-- C1: dump precedence in build_sqlmap_args.  If dump-all is set the
dump branch contributes exactly the single token dump-all, ignoring any
selected database or table; with only dump-related options set the
result carries no database selector, table selector or plain dump flag.
Otherwise, if dump is set, the branch appends the database selector when
a database is selected, then the dump flag with the table selector when
a table is selected, else the dump flag alone; in the worked example the
argument list ends in the tokens -D dvwa --dump -T users. -/
theorem C1_dump_precedence (t : String) (o : RunOptions) (d : Bool)
    (db tbl : Option String) (dbName tblName : String) :
    (o.dump_all = true → dump_args o = ["--dump-all"]) ∧
    (build_sqlmap_args t (dump_all_only_options d db tbl)
      = ["sqlmap", "-u", t, "--batch", "--answers=follow=Y", "--dump-all"]) ∧
    (t ≠ "-D" → t ≠ "-T" → t ≠ "--dump" →
      "-D" ∉ build_sqlmap_args t (dump_all_only_options d db tbl)
      ∧ "-T" ∉ build_sqlmap_args t (dump_all_only_options d db tbl)
      ∧ "--dump" ∉ build_sqlmap_args t (dump_all_only_options d db tbl)) ∧
    (dbName ≠ "" → tblName ≠ "" →
      dump_args (dump_only_options (some dbName) (some tblName))
        = ["-D", dbName, "--dump", "-T", tblName]) ∧
    (dbName ≠ "" →
      dump_args (dump_only_options (some dbName) none)
        = ["-D", dbName, "--dump"]) ∧
    (tblName ≠ "" →
      dump_args (dump_only_options none (some tblName))
        = ["--dump", "-T", tblName]) ∧
    (dump_args (dump_only_options none none) = ["--dump"]) ∧
    (build_sqlmap_args t dump_example_options
      = ["sqlmap", "-u", t, "--batch", "--answers=follow=Y",
         "-D", "dvwa", "--dump", "-T", "users"]) := by
  have hall : build_sqlmap_args t (dump_all_only_options d db tbl)
      = ["sqlmap", "-u", t, "--batch", "--answers=follow=Y", "--dump-all"] := by
    simp [build_sqlmap_args, dump_all_only_options, no_options,
          risk_args, level_args, threads_args, dbs_args, tables_args,
          columns_args, users_args, passwords_args, roles_args,
          dump_args, extra_args_tokens, truthy_str]
  refine ⟨?_, hall, ?_, ?_, ?_, ?_, ?_, ?_⟩
  · intro h; simp [dump_args, h]
  · intro h1 h2 h3
    rw [hall]
    refine ⟨?_, ?_, ?_⟩ <;> simp <;> tauto
  · intro h1 h2
    simp [dump_args, dump_only_options, no_options, truthy_str, h1, h2]
  · intro h1
    simp [dump_args, dump_only_options, no_options, truthy_str, h1]
  · intro h2
    simp [dump_args, dump_only_options, no_options, truthy_str, h2]
  · simp [dump_args, dump_only_options, no_options, truthy_str]
  · simp [build_sqlmap_args, dump_example_options, no_options,
          risk_args, level_args, threads_args, dbs_args, tables_args,
          columns_args, users_args, passwords_args, roles_args,
          dump_args, extra_args_tokens, truthy_str]

/-- Witness for C1 at concrete inputs. -/
theorem C1_dump_precedence_witness :
    dump_args (dump_all_only_options true (some "dvwa") (some "users"))
      = ["--dump-all"] ∧
    "-D" ∉ build_sqlmap_args "http://x/?id=1"
      (dump_all_only_options true (some "dvwa") (some "users")) ∧
    dump_args (dump_only_options (some "dvwa") (some "users"))
      = ["-D", "dvwa", "--dump", "-T", "users"] := by
  have h := C1_dump_precedence "http://x/?id=1"
    (dump_all_only_options true (some "dvwa") (some "users"))
    true (some "dvwa") (some "users") "dvwa" "users"
  exact ⟨h.1 rfl,
         (h.2.2.1 (by decide) (by decide) (by decide)).1,
         h.2.2.2.1 (by decide) (by decide)⟩

/-! ## C2: fixed base arguments and tuning flags -/

/-- C2: for risk in 1-3, level in 1-5 and threads in 1-50 when present,
build_sqlmap_args starts with the fixed five-token invocation, followed
immediately by the risk, level and threads flags with stringified
values, in that order, for exactly the options that are set. -/
theorem C2_base_and_tuning (t : String) (o : RunOptions)
    (hr : ∀ n, o.risk = some n → 1 ≤ n ∧ n ≤ 3)
    (hl : ∀ n, o.level = some n → 1 ≤ n ∧ n ≤ 5)
    (ht : ∀ n, o.threads = some n → 1 ≤ n ∧ n ≤ 50) :
    ∃ rest, build_sqlmap_args t o =
      ["sqlmap", "-u", t, "--batch", "--answers=follow=Y"]
      ++ (match o.risk with | some n => ["--risk", toString n] | none => [])
      ++ (match o.level with | some n => ["--level", toString n] | none => [])
      ++ (match o.threads with | some n => ["--threads", toString n] | none => [])
      ++ rest := by
  refine ⟨dbs_args o ++ tables_args o ++ columns_args o ++ users_args o
      ++ passwords_args o ++ roles_args o ++ dump_args o ++ extra_args_tokens o, ?_⟩
  rw [build_sqlmap_args,
      risk_args_eq o (fun n h => (hr n h).1),
      level_args_eq o (fun n h => (hl n h).1),
      threads_args_eq o (fun n h => (ht n h).1)]
  simp [List.append_assoc]

/-- Witness for C2 at concrete options. -/
theorem C2_base_and_tuning_witness :
    ∃ rest, build_sqlmap_args "http://x"
      { no_options with risk := some 2, level := some 3, threads := some 5 }
      = ["sqlmap", "-u", "http://x", "--batch", "--answers=follow=Y"]
        ++ ["--risk", "2"] ++ ["--level", "3"] ++ ["--threads", "5"] ++ rest := by
  have h := C2_base_and_tuning "http://x"
    { no_options with risk := some 2, level := some 3, threads := some 5 }
    (by intro n hn; injection hn with h; omega)
    (by intro n hn; injection hn with h; omega)
    (by intro n hn; injection hn with h; omega)
  simpa using h

/-! ## C3: output-directory locator -/

lemma pyReplace_no_head (p : Char) (ps rep : List Char) (s : List Char)
    (h : p ∉ s) : pyReplace s (p :: ps) rep = s := by
  induction s with
  | nil => simp [pyReplace]
  | cons c rest ih =>
    have hpc : c ≠ p := by
      intro he; exact h (by simp [he])
    have hrest : p ∉ rest := fun hm => h (List.mem_cons_of_mem c hm)
    have hcond : ¬ ((c :: rest).take (p :: ps).length = p :: ps) := by
      intro heq
      rw [List.length_cons, List.take_succ_cons] at heq
      exact hpc (List.head_eq_of_cons_eq heq)
    rw [pyReplace, if_neg hcond, ih hrest]

lemma pyReplaceStr_no_head (s : String) (p : Char) (ps : List Char)
    (pat rep : String) (hpat : pat.data = p :: ps) (h : p ∉ s.data) :
    pyReplaceStr s pat rep = s := by
  unfold pyReplaceStr
  rw [hpat, pyReplace_no_head p ps rep.data s.data h]

lemma sanitize_eq_self (t : String) (hc : ':' ∉ t.data) (hs : '/' ∉ t.data) :
    sanitize_target t = t := by
  unfold sanitize_target
  rw [pyReplaceStr_no_head t ':' ['/', '/'] "://" "_" rfl hc,
      pyReplaceStr_no_head t '/' [] "/" "_" rfl hs,
      pyReplaceStr_no_head t ':' [] ":" "_" rfl hc]

/-- C3: the locator returns the raw candidate when it exists on disk;
otherwise the sanitized candidate when that one exists; otherwise the
raw candidate even though it does not exist.  When the target carries no
scheme separator, slash or colon, sanitization leaves it unchanged, so
the two candidates coincide. -/
theorem C3_output_dir_lookup (fs : String → Bool) (base t : String) :
    (fs (pathJoin base t) = true →
       get_sqlmap_output_dir fs base t = pathJoin base t) ∧
    (fs (pathJoin base t) = false →
     fs (pathJoin base (sanitize_target t)) = true →
       get_sqlmap_output_dir fs base t = pathJoin base (sanitize_target t)) ∧
    (fs (pathJoin base t) = false →
     fs (pathJoin base (sanitize_target t)) = false →
       get_sqlmap_output_dir fs base t = pathJoin base t) ∧
    (':' ∉ t.data → '/' ∉ t.data → sanitize_target t = t) := by
  refine ⟨?_, ?_, ?_, ?_⟩
  · intro h1; simp [get_sqlmap_output_dir, h1]
  · intro h1 h2; simp [get_sqlmap_output_dir, h1, h2]
  · intro h1 h2; simp [get_sqlmap_output_dir, h1, h2]
  · intro hc hs; exact sanitize_eq_self t hc hs

/-- Witness for C3: empty filesystem, base /out, target 10.0.0.1. -/
theorem C3_output_dir_lookup_witness :
    get_sqlmap_output_dir (fun _ => false) "/out" "10.0.0.1"
      = pathJoin "/out" "10.0.0.1" ∧
    sanitize_target "10.0.0.1" = "10.0.0.1" := by
  have h := C3_output_dir_lookup (fun _ => false) "/out" "10.0.0.1"
  exact ⟨h.2.2.1 rfl rfl, h.2.2.2 (by decide) (by decide)⟩

/-! ## C4: capped, newest-first history insertion -/

lemma add_entry_cons {α : Type} (e : α) (s : List α) :
    add_run_history_entry e s = e :: s.take 99 := by
  unfold add_run_history_entry
  rw [show (100 : Nat) = 99 + 1 from rfl, List.take_succ_cons]

lemma foldl_add_entry {α : Type} (es : List α) : ∀ l : List α,
    es.foldl (fun acc x => add_run_history_entry x acc) (l.take 100)
      = (es.reverse ++ l).take 100 := by
  induction es with
  | nil => intro l; simp
  | cons x rest ih =>
    intro l
    have hstep : add_run_history_entry x (l.take 100) = (x :: l).take 100 := by
      rw [add_entry_cons, List.take_take]
      norm_num
    calc (x :: rest).foldl (fun acc x => add_run_history_entry x acc) (l.take 100)
        = rest.foldl (fun acc x => add_run_history_entry x acc) ((x :: l).take 100) := by
          rw [List.foldl_cons, hstep]
      _ = (rest.reverse ++ (x :: l)).take 100 := ih (x :: l)
      _ = ((x :: rest).reverse ++ l).take 100 := by
          simp [List.reverse_cons, List.append_assoc]

/-- C4: inserting a record puts it at index 0, keeps the previous
records in their prior order, and never lets the persisted list exceed
100 entries; 101 insertions starting from an empty store leave exactly
100 records with the first-inserted (oldest, last) record evicted. -/
theorem C4_history_cap {α : Type} (e : α) (s : List α) (es : List α) :
    (add_run_history_entry e s).head? = some e ∧
    (add_run_history_entry e s).tail = s.take 99 ∧
    (add_run_history_entry e s).length ≤ 100 ∧
    (es.length = 101 →
       es.foldl (fun acc x => add_run_history_entry x acc) []
         = (es.drop 1).reverse ∧
       (es.foldl (fun acc x => add_run_history_entry x acc) []).length = 100) := by
  refine ⟨by rw [add_entry_cons]; rfl, by rw [add_entry_cons]; rfl, ?_, ?_⟩
  · unfold add_run_history_entry
    exact List.length_take_le 100 (e :: s)
  · intro h
    have hfold := foldl_add_entry es ([] : List α)
    simp only [List.take_nil, List.append_nil] at hfold
    cases es with
    | nil => simp at h
    | cons a rest =>
      have hlen : rest.reverse.length = 100 := by
        simp at h ⊢; omega
      have hrev : (a :: rest).reverse.take 100 = rest.reverse := by
        rw [List.reverse_cons, ← hlen, List.take_left]
      rw [hfold, hrev]
      constructor
      · simp
      · rw [hlen]

/-- Witness for C4 at concrete records. -/
theorem C4_history_cap_witness :
    (add_run_history_entry (0 : Nat) [1, 2]).head? = some 0 ∧
    (add_run_history_entry (0 : Nat) [1, 2]).tail = [1, 2].take 99 ∧
    ((List.range 101).foldl (fun acc x => add_run_history_entry x acc) []
       = ((List.range 101).drop 1).reverse ∧
     ((List.range 101).foldl (fun acc x => add_run_history_entry x acc) []).length
       = 100) := by
  have h := C4_history_cap (0 : Nat) [1, 2] (List.range 101)
  exact ⟨h.1, h.2.1, h.2.2.2 (by simp)⟩

/-! ## C5: loading history never fails -/

/-- C5: load_run_history is total over every storage state: a missing
file yields the empty list, corrupt content yields the empty list, and
valid content yields the stored list unchanged, newest first. -/
theorem C5_load_history_total {α : Type} (msg : String) (l : List α) :
    load_run_history (HistoryFile.missing : HistoryFile α) = [] ∧
    load_run_history (HistoryFile.present (Except.error msg) : HistoryFile α)
      = [] ∧
    load_run_history (HistoryFile.present (Except.ok l)) = l :=
  ⟨rfl, rfl, rfl⟩

/-! ## C6: return-code heuristic -/

lemma containsSub_iff (s pat : List Char) :
    containsSub s pat = true ↔ ∃ p q, s = p ++ pat ++ q := by
  induction s with
  | nil =>
    simp only [containsSub, List.isEmpty_iff]
    constructor
    · intro h; exact ⟨[], [], by simp [h]⟩
    · rintro ⟨p, q, h⟩
      have hl := congrArg List.length h
      simp [List.length_append] at hl
      exact List.length_eq_zero.mp (by omega)
  | cons c rest ih =>
    by_cases hmatch : (c :: rest).take pat.length = pat
    · simp only [containsSub, if_pos hmatch, true_iff]
      refine ⟨[], (c :: rest).drop pat.length, ?_⟩
      conv_lhs => rw [← List.take_append_drop pat.length (c :: rest)]
      rw [hmatch, List.nil_append]
    · simp only [containsSub, if_neg hmatch]
      rw [ih]
      constructor
      · rintro ⟨p, q, h⟩; exact ⟨c :: p, q, by simp [h]⟩
      · rintro ⟨p, q, h⟩
        cases p with
        | nil =>
          exfalso
          apply hmatch
          simp only [List.nil_append] at h
          rw [h, List.take_left]
        | cons a p' =>
          have h2 := List.tail_eq_of_cons_eq (by simpa using h)
          exact ⟨p', q, by rw [List.append_assoc]; exact h2⟩

/-- C6: the fallback return code is the sentinel -1 exactly when the
lowercased concatenation of all streamed chunks contains error or
exception as a substring, and the only other value it takes is 0. -/
theorem C6_returncode_heuristic (chunks : List String) :
    (heuristic_returncode chunks = -1 ↔
       ((∃ p q, ((String.join chunks).toLower).data
            = p ++ (String.data "error") ++ q) ∨
        (∃ p q, ((String.join chunks).toLower).data
            = p ++ (String.data "exception") ++ q))) ∧
    (heuristic_returncode chunks = -1 ∨ heuristic_returncode chunks = 0) := by
  have hiff : (containsSub ((String.join chunks).toLower).data (String.data "error")
      || containsSub ((String.join chunks).toLower).data (String.data "exception"))
        = true ↔
      ((∃ p q, ((String.join chunks).toLower).data
          = p ++ (String.data "error") ++ q) ∨
       (∃ p q, ((String.join chunks).toLower).data
          = p ++ (String.data "exception") ++ q)) := by
    rw [Bool.or_eq_true, containsSub_iff, containsSub_iff]
  by_cases hb : (containsSub ((String.join chunks).toLower).data (String.data "error")
      || containsSub ((String.join chunks).toLower).data (String.data "exception"))
        = true
  · have hval : heuristic_returncode chunks = -1 := by
      simp only [heuristic_returncode]
      rw [if_pos hb]
    refine ⟨?_, Or.inl hval⟩
    rw [hval]
    exact ⟨fun _ => hiff.mp hb, fun _ => rfl⟩
  · have hb' : (containsSub ((String.join chunks).toLower).data (String.data "error")
        || containsSub ((String.join chunks).toLower).data (String.data "exception"))
          = false := by
      revert hb
      cases (containsSub ((String.join chunks).toLower).data (String.data "error")
        || containsSub ((String.join chunks).toLower).data (String.data "exception"))
      · intro _; rfl
      · intro hx; exact absurd rfl hx
    have hval : heuristic_returncode chunks = 0 := by
      simp only [heuristic_returncode]
      rw [if_neg (by rw [hb']; exact Bool.false_ne_true)]
    refine ⟨?_, Or.inr hval⟩
    rw [hval]
    constructor
    · intro h0; exact absurd h0 (by omega)
    · intro hp; exact absurd (hiff.mpr hp) hb

/-! ## C7: bounded previews -/

lemma preview_lines_of_cap (lines : List String) : ∀ (i m : Nat),
    i < m → m ≤ i + lines.length →
    preview_lines lines i m
      = (lines.take (m - i)).map rstrip_newline ++ [truncation_marker] := by
  induction lines with
  | nil =>
    intro i m h1 h2
    simp only [List.length_nil, Nat.add_zero] at h2
    omega
  | cons l rest ih =>
    intro i m h1 h2
    by_cases hc : i + 1 ≥ m
    · have hm : m - i = 1 := by omega
      rw [preview_lines, if_pos hc, hm]
      simp [List.take_succ_cons]
    · have hlt : i + 1 < m := by omega
      have hle : m ≤ (i + 1) + rest.length := by
        simp only [List.length_cons] at h2; omega
      rw [preview_lines, if_neg hc, ih (i + 1) m hlt hle]
      have hms : m - i = (m - (i + 1)) + 1 := by omega
      rw [hms, List.take_succ_cons]
      simp

lemma preview_lines_of_short (lines : List String) : ∀ (i m : Nat),
    i + lines.length < m →
    preview_lines lines i m = lines.map rstrip_newline := by
  induction lines with
  | nil => intro i m _; simp [preview_lines]
  | cons l rest ih =>
    intro i m h
    simp only [List.length_cons] at h
    have hc : ¬ (i + 1 ≥ m) := by omega
    rw [preview_lines, if_neg hc, ih (i + 1) m (by omega)]
    simp

/-- C7: on a 1000-line readable file with a 400-line cap the preview is
exactly the first 400 stripped lines followed by exactly one truncation
marker line. -/
theorem C7_preview_1000_lines (lines : List String) (h : lines.length = 1000) :
    preview_lines lines 0 400
      = (lines.take 400).map rstrip_newline ++ [truncation_marker] ∧
    read_file_preview lines 400
      = String.intercalate "\n"
          ((lines.take 400).map rstrip_newline ++ [truncation_marker]) := by
  have h1 := preview_lines_of_cap lines 0 400 (by omega) (by omega)
  simp only [Nat.sub_zero] at h1
  exact ⟨h1, by unfold read_file_preview; rw [h1]⟩

/-- Witness for C7 on a concrete 1000-line file. -/
theorem C7_preview_1000_lines_witness :
    (List.replicate 1000 "a").length = 1000 ∧
    preview_lines (List.replicate 1000 "a") 0 400
      = ((List.replicate 1000 "a").take 400).map rstrip_newline
        ++ [truncation_marker] := by
  refine ⟨by rw [List.length_replicate], ?_⟩
  exact (C7_preview_1000_lines (List.replicate 1000 "a")
    (by rw [List.length_replicate])).1

/-! ## C8: the default preview cap -/

set_option maxRecDepth 16384 in
/-- C8 counterexample: on a 201-line file, a call without max_lines does
not behave like a 400-line cap — the Python default parameter is 200, so
the default call truncates after 200 lines while a 400-line cap would
return all 201 lines with no marker. -/
theorem C8_default_cap_counterexample :
    read_file_preview_default (List.replicate 201 "x")
      ≠ read_file_preview (List.replicate 201 "x") 400 := by
  decide

/-- C8 amended: the default bound on preview length is 200 lines, not
400 — calling read_file_preview without supplying max_lines reads up to
200 lines before appending the truncation marker. -/
theorem C8_default_cap_is_200 (lines : List String) :
    read_file_preview_default lines = read_file_preview lines 200 ∧
    (200 ≤ lines.length →
       preview_lines lines 0 200
         = (lines.take 200).map rstrip_newline ++ [truncation_marker]) ∧
    (lines.length < 200 →
       preview_lines lines 0 200 = lines.map rstrip_newline) := by
  refine ⟨rfl, ?_, ?_⟩
  · intro h
    have := preview_lines_of_cap lines 0 200 (by omega) (by omega)
    simpa using this
  · intro h
    exact preview_lines_of_short lines 0 200 (by omega)

/-- Witness for the amended C8 on both sides of the cap. -/
theorem C8_default_cap_is_200_witness :
    (200 ≤ (List.replicate 300 "x").length ∧
     preview_lines (List.replicate 300 "x") 0 200
       = ((List.replicate 300 "x").take 200).map rstrip_newline
         ++ [truncation_marker]) ∧
    ((List.replicate 5 "x").length < 200 ∧
     preview_lines (List.replicate 5 "x") 0 200
       = (List.replicate 5 "x").map rstrip_newline) := by
  refine ⟨⟨by rw [List.length_replicate]; omega, ?_⟩,
          ⟨by rw [List.length_replicate]; omega, ?_⟩⟩
  · exact (C8_default_cap_is_200 (List.replicate 300 "x")).2.1
      (by rw [List.length_replicate]; omega)
  · exact (C8_default_cap_is_200 (List.replicate 5 "x")).2.2
      (by rw [List.length_replicate]; omega)

/-! ## C9: exit status of the secondary CLI -/

/-- C9 counterexample: when sqlmap exits with code 1, the orchestrator
process still terminates with exit status 0, so the exit status does not
equal the external process exit code. -/
theorem C9_exit_status_counterexample :
    (orchestrator_run "http://t" [("PHPSESSID", "abc")] [] 1).process_exit_status
      ≠ (orchestrator_run "http://t" [("PHPSESSID", "abc")] [] 1).sqlmap_returncode := by
  decide

/-- C9 amended: on normal completion the secondary CLI process exits
with status 0; the sqlmap exit code is recorded in the summary record
(and the built command carries the cookie header), not propagated as the
process exit status. -/
theorem C9_exit_status_amended (url : String)
    (cookies : List (String × String)) (extra : List String) (rc : Int) :
    (orchestrator_run url cookies extra rc).process_exit_status = 0 ∧
    (orchestrator_run url cookies extra rc).sqlmap_returncode = rc ∧
    (run_sqlmap url cookies extra rc).cmd
      = ["sqlmap", "-u", url, "--batch", "--cookie",
         build_cookie_header cookies] ++ extra :=
  ⟨rfl, rfl, rfl⟩

/-! ## C10: the marker at the exact boundary -/

/-- C10 counterexample: with max_lines 0 and an empty file — line count
exactly equal to max_lines — the preview is empty, with no truncation
marker line, contradicting the claim for this degenerate cap. -/
theorem C10_boundary_counterexample :
    read_file_preview ([] : List String) 0
      ≠ String.intercalate "\n"
          (([] : List String).map rstrip_newline ++ [truncation_marker]) ∧
    read_file_preview ([] : List String) 0 = "" := by
  constructor
  · decide
  · rfl

/-- C10 amended: for a positive cap, a file whose line count equals
max_lines yields all of its lines followed by the truncation marker even
though nothing was omitted; the marker is absent exactly when the file
has strictly fewer than max_lines lines. -/
theorem C10_boundary_marker (lines : List String) (max_lines : Nat)
    (hpos : 1 ≤ max_lines) :
    (lines.length = max_lines →
       preview_lines lines 0 max_lines
         = lines.map rstrip_newline ++ [truncation_marker]) ∧
    (lines.length < max_lines →
       preview_lines lines 0 max_lines = lines.map rstrip_newline) ∧
    (max_lines ≤ lines.length →
       preview_lines lines 0 max_lines
         = (lines.take max_lines).map rstrip_newline ++ [truncation_marker]) := by
  have hcap : max_lines ≤ lines.length →
      preview_lines lines 0 max_lines
        = (lines.take max_lines).map rstrip_newline ++ [truncation_marker] := by
    intro h
    have := preview_lines_of_cap lines 0 max_lines (by omega) (by omega)
    simpa using this
  refine ⟨?_, ?_, hcap⟩
  · intro h
    rw [hcap (by omega), ← h, List.take_length]
  · intro h
    exact preview_lines_of_short lines 0 max_lines (by omega)

/-- Witness for the amended C10 at the boundary and below it. -/
theorem C10_boundary_marker_witness :
    preview_lines ["a", "b"] 0 2
      = ["a", "b"].map rstrip_newline ++ [truncation_marker] ∧
    preview_lines ["a"] 0 2 = ["a"].map rstrip_newline := by
  exact ⟨(C10_boundary_marker ["a", "b"] 2 (by omega)).1 (by decide),
         (C10_boundary_marker ["a"] 2 (by omega)).2.1 (by decide)⟩

end BetterSQLi
